import Mathlib

/-!
# URL shortener: storage engine, save handler and redirect handler

A shallow embedding of

* `internal/storage/postgres/postgres.go` (`Storage.SaveURL`, `Storage.GetURL`),
* `internal/http-server/handlers/url/save/save.go` (`New`, `responseOK`),
* `internal/http-server/handlers/url/save/redirect/redirect.go` (`New`).

Go's `error` interface is `Option GoError` (`none` is `nil`).  Code with effects is
written in state-passing style: the `url` table for the storage engine, an arbitrary
world `σ` threaded through the collaborators of the handlers.  Since `alias` is a
reserved word here, the Go identifier `alias` is written `alias_`.
-/

namespace UrlShortener

/-! ## Go errors -/

/-- A Go error value: a package-level variable made by `errors.New` (Go compares such
values by identity, here by the qualified name of the variable) or another error
that wraps nothing (named by its type and code), or the result of `fmt.Errorf` with
one `%w` verb around an inner error (`text` is what is printed before the inner
error). -/
inductive GoError where
  | sentinel (name : String)
  | wrap (text : String) (inner : GoError)
deriving DecidableEq, Repr

/-- The chain walk of `errors.Is` for a non-nil error: the error itself is compared
with the target, then whatever it unwraps to.  The targets of this program are
package-level variables. -/
def GoError.is : GoError → GoError → Bool
  | .sentinel n, target => decide (GoError.sentinel n = target)
  | .wrap t inner, target => decide (GoError.wrap t inner = target) || inner.is target

/-- Go `errors.Is(err, target)` for a non-nil target: false on a nil `err`. -/
def errorsIs (err : Option GoError) (target : GoError) : Bool :=
  match err with
  | none => false
  | some e => e.is target

namespace pgx

/-- The variable `ErrNoRows` of package `github.com/jackc/pgx`, the package
`postgres.go` imports under the name `pgx` and tests errors against. -/
def ErrNoRows : GoError := .sentinel "github.com/jackc/pgx.ErrNoRows"

end pgx

namespace pgxv5

/-- The variable `ErrNoRows` of package `github.com/jackc/pgx/v5`: what `Scan` on a
row of a `pgx/v5/pgxpool` pool reports when the query produced no row.  It is
declared in another package than `pgx.ErrNoRows` and does not unwrap to it. -/
def ErrNoRows : GoError := .sentinel "github.com/jackc/pgx/v5.ErrNoRows"

end pgxv5

namespace storage

/-- Modelled from the spec: the `AliasExists` error, the variable `ErrURLExists` of
package `internal/storage`, whose file is not among the sources. -/
def ErrURLExists : GoError := .sentinel "restapiserv/internal/storage.ErrURLExists"

/-- Modelled from the spec: the `NotFound` error, the variable `ErrURLNotFound` of
package `internal/storage`, whose file is not among the sources. -/
def ErrURLNotFound : GoError := .sentinel "restapiserv/internal/storage.ErrURLNotFound"

end storage

/-! ## Storage engine (`postgres.go`) -/

namespace postgres

/-- One row of table `url(id SERIAL PRIMARY KEY, alias TEXT NOT NULL UNIQUE,
url TEXT NOT NULL)`. -/
structure Row where
  id : Nat
  alias_ : String
  url : String
deriving DecidableEq, Repr

/-- The state behind `Storage.db`: the rows of table `url` and the last value handed
out by the sequence of the `SERIAL` column (0 before the first one). -/
structure Storage where
  rows : List Row
  lastID : Nat
deriving DecidableEq, Repr

/-- The largest value of a `SERIAL` column and of its sequence, which are `int4`. -/
def maxSerial : Nat := 2147483647

/-- Whether PostgreSQL takes the string as a `TEXT` value: it has no NUL character. -/
def validText (v : String) : Bool :=
  v.toList.all (fun c => c != Char.ofNat 0)

/-- The server's error for a text parameter with a NUL character, a `*pgconn.PgError`
of SQLSTATE 22021. -/
def errInvalidText : GoError := .sentinel "*pgconn.PgError 22021"

/-- The server's error for `nextval` on a sequence that has reached its maximum, a
`*pgconn.PgError` of SQLSTATE 2200H. -/
def errSequenceLimit : GoError := .sentinel "*pgconn.PgError 2200H"

/-- The server's error for a second row with the same primary key, a
`*pgconn.PgError` of SQLSTATE 23505. -/
def errUniqueViolation : GoError := .sentinel "*pgconn.PgError 23505"

/-- The ids of the table were handed out by its sequence: no row has an id above the
last value of the sequence, and that value is within the range of the column. -/
def Storage.idsFromSequence (s : Storage) : Bool :=
  s.rows.all (fun r => decide (r.id ≤ s.lastID)) && decide (s.lastID ≤ maxSerial)

/-- The pool call of `SaveURL`: `QueryRow` with
`INSERT INTO url(alias, url) VALUES($1, $2) ON CONFLICT (alias) DO NOTHING RETURNING id`
and `Scan(&id)`, on a server that is reached.  A parameter with a NUL character is
refused when the parameters are bound.  Then the default of column `id` takes the
next value of the sequence, which fails once the sequence is at its maximum and
otherwise advances it, also when no row is inserted in the end.  When a row with
the alias exists nothing is inserted, no row is returned and `Scan` reports the
pool's `ErrNoRows`.  When a row has the id already, the primary key refuses the
row.  Otherwise the row is inserted and its id returned. -/
def queryRowInsert (s : Storage) (alias_ url : String) : Storage × Except GoError Nat :=
  if !(validText alias_ && validText url) then
    (s, .error errInvalidText)
  else if maxSerial ≤ s.lastID then
    (s, .error errSequenceLimit)
  else
    let id := s.lastID + 1
    if s.rows.any (fun r => r.alias_ == alias_) then
      ({ s with lastID := id }, .error pgxv5.ErrNoRows)
    else if s.rows.any (fun r => r.id == id) then
      ({ s with lastID := id }, .error errUniqueViolation)
    else
      ({ rows := s.rows ++ [{ id := id, alias_ := alias_, url := url }], lastID := id },
        .ok id)

/-- The pool call of `GetURL`: `QueryRow` with `SELECT url FROM url WHERE alias = $1`
and `Scan(&url)`, on a server that is reached: a parameter with a NUL character is
refused; otherwise the result is the url of the first row with that alias, or the
pool's `ErrNoRows`. -/
def queryRowSelect (s : Storage) (alias_ : String) : Except GoError String :=
  if !validText alias_ then .error errInvalidText
  else
    match s.rows.find? (fun r => r.alias_ == alias_) with
    | some r => .ok r.url
    | none => .error pgxv5.ErrNoRows

/-- Go `Storage.SaveURL`: the new state, the returned id and the returned error. -/
def SaveURL (s : Storage) (urlToSave alias_ : String) : Storage × Nat × Option GoError :=
  match queryRowInsert s alias_ urlToSave with
  | (s', .error err) =>
    if errorsIs (some err) pgx.ErrNoRows then
      (s', 0, some storage.ErrURLExists)
    else
      (s', 0, some (.wrap "storage.postgres.SaveURL: " err))
  | (s', .ok id) => (s', id, none)

/-- Go `Storage.GetURL`: the returned url and the returned error. -/
def GetURL (s : Storage) (alias_ : String) : String × Option GoError :=
  match queryRowSelect s alias_ with
  | .error err =>
    if errorsIs (some err) pgx.ErrNoRows then
      ("", some storage.ErrURLNotFound)
    else
      ("", some (.wrap "storage.postgres.GetURL: execute statement " err))
  | .ok url => (url, none)

end postgres

/-! ## Responses (`internal/lib/api/response`) -/

namespace resp

/-- Modelled from the spec: the type `Response` of package `internal/lib/api/response`
(absent from the sources), the JSON object with a `status` of "OK" or "Error" and an
optional `error` text; an empty `Error` is left out of the JSON. -/
structure Response where
  Status : String
  Error : String
deriving DecidableEq, Repr

/-- Modelled from the spec: the success status of a response body. -/
def StatusOK : String := "OK"

/-- Modelled from the spec: the failure status of a response body. -/
def StatusError : String := "Error"

/-- Modelled from the spec: `resp.OK()` (absent from the sources), the status-ok
payload with no error. -/
def OK : Response := { Status := StatusOK, Error := "" }

/-- Modelled from the spec: `resp.Error(msg)` (absent from the sources), the
status-error payload carrying the message. -/
def Error (msg : String) : Response := { Status := StatusError, Error := msg }

end resp

/-! ## Field validation (`go-playground/validator` over the tags of `Request`) -/

/-- Go `save.Request`, the decoded payload. -/
structure Request where
  URL : String
  Alias : String
deriving DecidableEq, Repr

/-- The validation tags that occur in the `validate:"..."` struct tags of `Request`. -/
inductive Tag where
  | required
  | url
  | omitempty
  | alphanum
  | min (n : Nat)
  | max (n : Nat)
deriving DecidableEq, Repr

/-- The tag as `FieldError.ActualTag` names it. -/
def Tag.name : Tag → String
  | .required => "required"
  | .url => "url"
  | .omitempty => "omitempty"
  | .alphanum => "alphanum"
  | .min _ => "min"
  | .max _ => "max"

/-- The struct tag of field `URL`: `validate:"required,url"`. -/
def Request.URLTags : List Tag := [.required, .url]

/-- The struct tag of field `Alias`: `validate:"omitempty,alphanum,min=3,max=20"`. -/
def Request.AliasTags : List Tag := [.omitempty, .alphanum, .min 3, .max 20]

/-- One entry of `validator.ValidationErrors`: the struct field and the tag that
failed on it. -/
structure FieldError where
  Field : String
  Tag : String
deriving DecidableEq, Repr

/-- A character of the class `[a-zA-Z0-9]`. -/
def isAlnum (c : Char) : Bool :=
  ('a' ≤ c && c ≤ 'z') || ('A' ≤ c && c ≤ 'Z') || ('0' ≤ c && c ≤ '9')

/-- Whether a string value passes one tag.  `required`: not the zero value;
`url`: the validator's URL check, which rests on `net/url` and is taken as the
parameter `isURL`; `alphanum`: the regular expression `^[a-zA-Z0-9]+$`;
`min=n`, `max=n`: bounds on the number of characters. -/
def Tag.holds (isURL : String → Bool) (value : String) : Tag → Bool
  | .required => value != ""
  | .url => isURL value
  | .omitempty => true
  | .alphanum => value != "" && value.toList.all isAlnum
  | .min n => decide (n ≤ value.length)
  | .max n => decide (value.length ≤ n)

/-- The validator on one string field: tags are tried in order and the first one
that fails is reported; `omitempty` ends the field with no error when the value
is empty. -/
def validateField (isURL : String → Bool) (field value : String) :
    List Tag → Option FieldError
  | [] => none
  | t :: rest =>
    if t = .omitempty ∧ value = "" then none
    else if t.holds isURL value then validateField isURL field value rest
    else some { Field := field, Tag := t.name }

/-- Go `validator.New().Struct(req)`: the field errors of `URL` and `Alias`, in the
order of the fields; the empty list stands for a nil error. -/
def validateStruct (isURL : String → Bool) (req : Request) : List FieldError :=
  (validateField isURL "URL" req.URL Request.URLTags).toList ++
    (validateField isURL "Alias" req.Alias Request.AliasTags).toList

namespace resp

/-- Modelled from the spec: the human-readable reason for one failing field:
"field URL is a required field" for a missing value, "field URL is not a valid URL"
for a value that is no URL, and for any other failed tag the field is named the
same way and called not valid. -/
def fieldMessage (e : FieldError) : String :=
  if e.Tag = "required" then "field " ++ e.Field ++ " is a required field"
  else if e.Tag = "url" then "field " ++ e.Field ++ " is not a valid URL"
  else "field " ++ e.Field ++ " is not valid"

/-- Go `strings.Join`. -/
def join (sep : String) : List String → String
  | [] => ""
  | [a] => a
  | a :: b :: rest => a ++ sep ++ join sep (b :: rest)

/-- Modelled from the spec: `resp.ValidationError(errs)` (absent from the sources),
the status-error payload enumerating each failing field with its reason. -/
def ValidationError (errs : List FieldError) : Response :=
  { Status := StatusError, Error := join ", " (errs.map fieldMessage) }

end resp

/-! ## Decoding the request body (`render.DecodeJSON`, i.e. `encoding/json`) -/

namespace io

/-- Go `io.EOF`. -/
def EOF : GoError := .sentinel "io.EOF"

/-- Go `io.ErrUnexpectedEOF`. -/
def ErrUnexpectedEOF : GoError := .sentinel "io.ErrUnexpectedEOF"

end io

/-- How `encoding/json` fails once the input holds something other than white space:
the input ends inside a value, the text is not JSON, or the value does not fit
the fields of `Request`. -/
inductive JSONFailure where
  | unexpectedEOF
  | syntaxError
  | unmarshalTypeError
deriving DecidableEq, Repr

/-- The Go error value of a decoding failure. -/
def JSONFailure.toError : JSONFailure → GoError
  | .unexpectedEOF => io.ErrUnexpectedEOF
  | .syntaxError => .sentinel "*json.SyntaxError"
  | .unmarshalTypeError => .sentinel "*json.UnmarshalTypeError"

/-- The white space of JSON: space, tab, carriage return, line feed. -/
def isJSONSpace (c : Char) : Bool :=
  c = ' ' || c = '\t' || c = '\r' || c = '\n'

/-- Go `render.DecodeJSON(r.Body, &req)`, which is
`json.NewDecoder(r).Decode(v)`.  The decoder skips white space; when the input
ends before a value has started it returns `io.EOF`.  Reading the value and
filling `Request` from it is the parameter `readValue`. -/
def DecodeJSON (readValue : String → Except JSONFailure Request) (body : String) :
    Except GoError Request :=
  if body.toList.all isJSONSpace then .error io.EOF
  else
    match readValue body with
    | .ok req => .ok req
    | .error f => .error f.toError

/-! ## What a handler writes -/

/-- The JSON object of a response body: keys `status`, `error` and `alias`, the last
two left out of the JSON when empty (`omitempty`). -/
structure Body where
  status : String
  error : String
  alias_ : String
deriving DecidableEq, Repr

/-- What a handler does with the `http.ResponseWriter`: `render.JSON` of a body under
a status code (200 unless `render.Status` set another), or `http.Redirect` called
with a target url and a status code. -/
inductive Reply where
  | json (code : Nat) (body : Body)
  | redirect (url : String) (code : Nat)
deriving DecidableEq, Repr

/-- Go `http.StatusOK`. -/
def StatusOK : Nat := 200

/-- Go `http.StatusFound`. -/
def StatusFound : Nat := 302

/-- Go `http.StatusNotFound`. -/
def StatusNotFound : Nat := 404

/-- Go `render.JSON(w, r, v)` for a `resp.Response`. -/
def renderJSON (code : Nat) (v : resp.Response) : Reply :=
  .json code { status := v.Status, error := v.Error, alias_ := "" }

/-! ## Save handler (`save.go`) -/

namespace save

/-- Go `save.Response`: a `resp.Response` and the alias. -/
structure Response where
  toResponse : resp.Response
  Alias : String
deriving DecidableEq, Repr

/-- Go `aliasLength`: the length of a generated alias. -/
def aliasLength : Nat := 6

/-- Go interface `URLSaver` over a world `σ`: `SaveURL(urlToSave, alias)` returns
the id and the error, and may change the world. -/
structure URLSaver (σ : Type) where
  SaveURL : σ → String → String → σ × Nat × Option GoError

/-- The packages `New` calls besides its arguments: the JSON value reader behind
`render.DecodeJSON`, the URL check behind the `url` validation tag, and
`random.NewRandomString` (package `internal/lib/random`, absent from the sources),
which draws from the world. -/
structure Deps (σ : Type) where
  readValue : String → Except JSONFailure Request
  isURL : String → Bool
  NewRandomString : σ → Nat → σ × String

/-- Go `responseOK(w, r, alias)`. -/
def responseOK (alias_ : String) : Reply :=
  let v : Response := { toResponse := resp.OK, Alias := alias_ }
  .json StatusOK { status := v.toResponse.Status, error := v.toResponse.Error, alias_ := v.Alias }

/-- The alias `New` saves under: the one of the request, or a generated one of
`aliasLength` characters when the request has none. -/
def chooseAlias {σ : Type} (deps : Deps σ) (w : σ) (req : Request) : σ × String :=
  if req.Alias = "" then deps.NewRandomString w aliasLength else (w, req.Alias)

/-- Go `save.New(log, urlSaver)` applied to a request with the given body: the world
after the call and what was written (logging is left out). -/
def New {σ : Type} (deps : Deps σ) (urlSaver : URLSaver σ) (w : σ) (body : String) :
    σ × Reply :=
  match DecodeJSON deps.readValue body with
  | .error err =>
    if errorsIs (some err) io.EOF then
      (w, renderJSON StatusOK (resp.Error "empty request"))
    else
      (w, renderJSON StatusOK (resp.Error "failed to decode request"))
  | .ok req =>
    match validateStruct deps.isURL req with
    | e :: es => (w, renderJSON StatusOK (resp.ValidationError (e :: es)))
    | [] =>
      let a := chooseAlias deps w req
      let r := urlSaver.SaveURL a.1 req.URL a.2
      if errorsIs r.2.2 storage.ErrURLExists then
        (r.1, renderJSON StatusOK (resp.Error "url already exists"))
      else if r.2.2.isSome then
        (r.1, renderJSON StatusOK (resp.Error "failed to add url"))
      else
        (r.1, responseOK a.2)

end save

/-! ## Redirect handler (`redirect.go`) -/

namespace redirect

/-- Go interface `URLGetter` over a world `σ`: `GetURL(alias)` returns the url and
the error. -/
structure URLGetter (σ : Type) where
  GetURL : σ → String → σ × String × Option GoError

/-- Go `redirect.New(log, urlGetter)` applied to a request whose path parameter
`alias` is `alias_` (the value of `chi.URLParam(r, "alias")`). -/
def New {σ : Type} (urlGetter : URLGetter σ) (w : σ) (alias_ : String) : σ × Reply :=
  if alias_ = "" then
    (w, renderJSON StatusOK (resp.Error "invalid request"))
  else
    let r := urlGetter.GetURL w alias_
    if errorsIs r.2.2 storage.ErrURLNotFound then
      (r.1, renderJSON StatusNotFound (resp.Error "not found"))
    else if r.2.2.isSome then
      (r.1, renderJSON StatusOK (resp.Error "internal error"))
    else
      (r.1, .redirect r.2.1 StatusFound)

end redirect

/-! ## The handlers over the storage engine -/

/-- The storage engine as the `URLSaver` of the save handler. -/
def postgresSaver : save.URLSaver postgres.Storage :=
  { SaveURL := postgres.SaveURL }

/-- The storage engine as the `URLGetter` of the redirect handler. -/
def postgresGetter : redirect.URLGetter postgres.Storage :=
  { GetURL := fun s a => (s, postgres.GetURL s a) }

/-! ## Predicates of the specification -/

/-- A string of 3 to 20 characters, each of them one of a-z, A-Z, 0-9. -/
def isAlphanum3to20 (a : String) : Bool :=
  decide (3 ≤ a.length) && decide (a.length ≤ 20) && a.toList.all isAlnum

/-- The text `s` contains the text `m`. -/
def containsText (s m : String) : Prop :=
  ∃ pre post : String, s = pre ++ m ++ post

/-! ## A concrete instance: the handlers over an in-memory table -/

namespace sample

/-- The body the handler test sends: `fmt.Sprintf` of the url and the alias into
a JSON object with the keys `url` and `alias`. -/
def payload (req : Request) : String :=
  "\x7b\"url\": \"" ++ req.URL ++ "\", \"alias\": \"" ++ req.Alias ++ "\"\x7d"

/-- The requests whose bodies the sample value reader knows. -/
def requests : List Request :=
  [ { URL := "https://google.com", Alias := "test_alias" },
    { URL := "https://google.com", Alias := "testalias" },
    { URL := "https://google.com", Alias := "" },
    { URL := "", Alias := "some_alias" },
    { URL := "some invalid URL", Alias := "some_alias" } ]

/-- A value reader for the sample bodies: the payload of a known request decodes to
that request, the truncated object of one opening brace ends inside a value, and
any other text is a syntax error. -/
def readValue (body : String) : Except JSONFailure Request :=
  match requests.find? (fun r => payload r == body) with
  | some r => .ok r
  | none => if body = "\x7b" then .error .unexpectedEOF else .error .syntaxError

/-- Sample dependencies: the sample value reader, a URL check that accepts
`https://google.com` only, and a generator that returns the requested number of
copies of the letter `a`. -/
def deps : save.Deps postgres.Storage :=
  { readValue := readValue
    isURL := fun s => s == "https://google.com"
    NewRandomString := fun w n => (w, String.mk (List.replicate n 'a')) }

/-- The empty table. -/
def emptyTable : postgres.Storage := { rows := [], lastID := 0 }

/-- A table with one mapping, from alias `abc` to `https://a.example`. -/
def oneRow : postgres.Storage :=
  { rows := [{ id := 1, alias_ := "abc", url := "https://a.example" }], lastID := 1 }

/-- A table whose sequence has handed out its last value: one mapping was saved and
every later call met its alias. -/
def exhausted : postgres.Storage :=
  { rows := [{ id := 1, alias_ := "abc", url := "https://a.example" }],
    lastID := postgres.maxSerial }

/-- A table with a row whose id was not taken from the sequence: the next value of
the sequence is the id of that row. -/
def idAhead : postgres.Storage :=
  { rows := [{ id := 5, alias_ := "abc", url := "https://a.example" }], lastID := 4 }

/-- A saver that always reports that the alias exists. -/
def existsSaver : save.URLSaver postgres.Storage :=
  { SaveURL := fun w _ _ => (w, 0, some storage.ErrURLExists) }

/-- A saver that always fails with the given error. -/
def failingSaver (e : GoError) : save.URLSaver postgres.Storage :=
  { SaveURL := fun w _ _ => (w, 0, some e) }

end sample

/-! ## Storage engine: lemmas -/

theorem rows_any_eq_false (s : postgres.Storage) (a : String)
    (h : ∀ r ∈ s.rows, r.alias_ ≠ a) :
    s.rows.any (fun r => r.alias_ == a) = false := by
  rw [List.any_eq_false]
  intro r hr
  simpa using h r hr

theorem rows_find_eq_none (s : postgres.Storage) (a : String)
    (h : ∀ r ∈ s.rows, r.alias_ ≠ a) :
    s.rows.find? (fun r => r.alias_ == a) = none := by
  rw [List.find?_eq_none]
  intro r hr
  simpa using h r hr

/-- What `idsFromSequence` says, as propositions. -/
theorem idsFromSequence_iff (s : postgres.Storage) :
    s.idsFromSequence = true ↔
      (∀ r ∈ s.rows, r.id ≤ s.lastID) ∧ s.lastID ≤ postgres.maxSerial := by
  simp [postgres.Storage.idsFromSequence]

/-- In a table whose ids were handed out by its sequence no row has the next id. -/
theorem rows_any_next_id_eq_false (s : postgres.Storage) (h : s.idsFromSequence = true) :
    s.rows.any (fun r => r.id == s.lastID + 1) = false := by
  rw [List.any_eq_false]
  intro r hr
  have := ((idsFromSequence_iff s).1 h).1 r hr
  simp only [beq_iff_eq]
  omega

/-- The empty table, as `CREATE TABLE` leaves it, has its ids from its sequence. -/
theorem idsFromSequence_emptyTable : sample.emptyTable.idsFromSequence = true := by
  decide

/-- Whatever the arguments and the outcome, `SaveURL` on a table whose ids were handed
out by its sequence leaves such a table. -/
theorem SaveURL_keeps_idsFromSequence (s : postgres.Storage) (u a : String)
    (h : s.idsFromSequence = true) :
    (postgres.SaveURL s u a).1.idsFromSequence = true := by
  obtain ⟨hrows, hmax⟩ := (idsFromSequence_iff s).1 h
  have hstep : postgres.maxSerial ≤ s.lastID ∨ s.lastID + 1 ≤ postgres.maxSerial := by omega
  have hle : ∀ r ∈ s.rows, r.id ≤ s.lastID + 1 := fun r hr => Nat.le_succ_of_le (hrows r hr)
  unfold postgres.SaveURL postgres.queryRowInsert
  split_ifs with h1 h2 h3 <;> simp only [] <;> try split_ifs
  all_goals first
    | exact h
    | (rw [idsFromSequence_iff]
       rcases hstep with hstep | hstep
       · exact absurd hstep h2
       · refine ⟨?_, hstep⟩
         intro r hr
         simp only [List.mem_append, List.mem_singleton] at hr
         first
           | exact hle r hr
           | (rcases hr with hr | hr
              · exact hle r hr
              · subst hr
                exact Nat.le_refl _))

/-- On an unused alias, with parameters the server takes, a sequence that is not at its
maximum and ids handed out by the sequence, `SaveURL` appends the row under the next
id of the sequence and returns that id with a nil error. -/
theorem SaveURL_of_unused (s : postgres.Storage) (u a : String)
    (hu : postgres.validText u = true) (ha : postgres.validText a = true)
    (hinv : s.idsFromSequence = true) (hseq : s.lastID < postgres.maxSerial)
    (h : ∀ r ∈ s.rows, r.alias_ ≠ a) :
    postgres.SaveURL s u a =
      ({ rows := s.rows ++ [{ id := s.lastID + 1, alias_ := a, url := u }],
         lastID := s.lastID + 1 }, s.lastID + 1, none) := by
  have hseq' : ¬ postgres.maxSerial ≤ s.lastID := by omega
  simp [postgres.SaveURL, postgres.queryRowInsert, hu, ha, hseq', rows_any_eq_false s a h,
    rows_any_next_id_eq_false s hinv]

/-- The pool's `ErrNoRows` is not the `ErrNoRows` the storage engine tests for. -/
theorem pool_ErrNoRows_is_not_pgx_ErrNoRows :
    errorsIs (some pgxv5.ErrNoRows) pgx.ErrNoRows = false := by
  decide

/-- On an alias that is in the table, with parameters the server takes and a sequence
that is not at its maximum, `SaveURL` leaves the rows as they are and returns id 0
with the pool's `ErrNoRows` wrapped under the name of the operation. -/
theorem SaveURL_of_used (s : postgres.Storage) (u a : String) (r : postgres.Row)
    (hu : postgres.validText u = true) (ha : postgres.validText a = true)
    (hseq : s.lastID < postgres.maxSerial)
    (hr : r ∈ s.rows) (hra : r.alias_ = a) :
    postgres.SaveURL s u a =
      ({ rows := s.rows, lastID := s.lastID + 1 }, 0,
        some (.wrap "storage.postgres.SaveURL: " pgxv5.ErrNoRows)) := by
  have hseq' : ¬ postgres.maxSerial ≤ s.lastID := by omega
  have hany : s.rows.any (fun r => r.alias_ == a) = true := by
    rw [List.any_eq_true]
    exact ⟨r, hr, by simpa using hra⟩
  simp [postgres.SaveURL, postgres.queryRowInsert, hu, ha, hseq', hany,
    pool_ErrNoRows_is_not_pgx_ErrNoRows]

/-- On an alias the server takes that is not in the table `GetURL` returns the empty
string with the pool's `ErrNoRows` wrapped under the name of the operation. -/
theorem GetURL_of_unused (s : postgres.Storage) (a : String)
    (ha : postgres.validText a = true) (h : ∀ r ∈ s.rows, r.alias_ ≠ a) :
    postgres.GetURL s a =
      ("", some (.wrap "storage.postgres.GetURL: execute statement " pgxv5.ErrNoRows)) := by
  simp [postgres.GetURL, postgres.queryRowSelect, ha, rows_find_eq_none s a h,
    pool_ErrNoRows_is_not_pgx_ErrNoRows]

/-! ## Storage engine: the claims -/

/-- C2, as amended. Round trip of the storage engine: for every url `u` and alias `a`
without a NUL character, from every table in which no row has alias `a`, no row has
an id above the last value of the id sequence and that value is below the maximum
2147483647 of the sequence, `SaveURL u a` returns a nil error and the next value of
the sequence as id, an id no row of the table has; the row of that id, `a` and `u`
is appended, the sequence stands at that id, the ids of the resulting table are again
from its sequence, and `GetURL a` on it returns exactly `u` with a nil error. -/
theorem SaveURL_then_GetURL_round_trip (s : postgres.Storage) (u a : String)
    (hu : postgres.validText u = true) (ha : postgres.validText a = true)
    (hinv : s.idsFromSequence = true) (hseq : s.lastID < postgres.maxSerial)
    (h : ∀ r ∈ s.rows, r.alias_ ≠ a) :
    (postgres.SaveURL s u a).2.2 = none ∧
    (postgres.SaveURL s u a).2.1 = s.lastID + 1 ∧
    (∀ r ∈ s.rows, r.id ≠ (postgres.SaveURL s u a).2.1) ∧
    (postgres.SaveURL s u a).1.rows =
      s.rows ++ [{ id := (postgres.SaveURL s u a).2.1, alias_ := a, url := u }] ∧
    (postgres.SaveURL s u a).1.lastID = (postgres.SaveURL s u a).2.1 ∧
    (postgres.SaveURL s u a).1.idsFromSequence = true ∧
    postgres.GetURL (postgres.SaveURL s u a).1 a = (u, none) := by
  have hkeep := SaveURL_keeps_idsFromSequence s u a hinv
  rw [SaveURL_of_unused s u a hu ha hinv hseq h] at hkeep ⊢
  refine ⟨rfl, rfl, ?_, rfl, rfl, hkeep, ?_⟩
  · intro r hr
    have := ((idsFromSequence_iff s).1 hinv).1 r hr
    simp only
    omega
  · simp [postgres.GetURL, postgres.queryRowSelect, ha, List.find?_append,
      rows_find_eq_none s a h]

/-- C2 as amended, at the table with the one mapping of alias `abc` under id 1: saving
`https://b.example` under the unused alias `xyz` returns id 2, appends the row and
the lookup of `xyz` returns that url. -/
theorem SaveURL_then_GetURL_round_trip_witness :
    (∀ r ∈ sample.oneRow.rows, r.alias_ ≠ "xyz") ∧
    sample.oneRow.idsFromSequence = true ∧
    postgres.SaveURL sample.oneRow "https://b.example" "xyz" =
      ({ rows := [{ id := 1, alias_ := "abc", url := "https://a.example" },
                  { id := 2, alias_ := "xyz", url := "https://b.example" }],
         lastID := 2 }, 2, none) ∧
    postgres.GetURL (postgres.SaveURL sample.oneRow "https://b.example" "xyz").1 "xyz" =
      ("https://b.example", none) :=
  ⟨by decide, by decide, by decide,
    (SaveURL_then_GetURL_round_trip sample.oneRow "https://b.example" "xyz"
      (by decide) (by decide) (by decide) (by decide) (by decide)).2.2.2.2.2.2⟩

/-- C2 as stated fails at table states in which no row has the alias to save under:
with the sequence at its maximum, with a row that already has the next id of the
sequence, and on the empty table with a url or an alias that has a NUL character,
`SaveURL` returns id 0 and a wrapped error of the server, inserts no row, and the
following `GetURL` of the alias returns an error and not the url. -/
theorem SaveURL_on_unused_alias_returns_error :
    ((∀ r ∈ sample.exhausted.rows, r.alias_ ≠ "xyz") ∧
      postgres.SaveURL sample.exhausted "https://b.example" "xyz" =
        (sample.exhausted, 0,
          some (.wrap "storage.postgres.SaveURL: " postgres.errSequenceLimit)) ∧
      (postgres.GetURL (postgres.SaveURL sample.exhausted "https://b.example" "xyz").1
        "xyz").2 ≠ none) ∧
    ((∀ r ∈ sample.idAhead.rows, r.alias_ ≠ "xyz") ∧
      postgres.SaveURL sample.idAhead "https://b.example" "xyz" =
        ({ rows := sample.idAhead.rows, lastID := 5 }, 0,
          some (.wrap "storage.postgres.SaveURL: " postgres.errUniqueViolation)) ∧
      (postgres.GetURL (postgres.SaveURL sample.idAhead "https://b.example" "xyz").1
        "xyz").2 ≠ none) ∧
    ((∀ r ∈ sample.emptyTable.rows, r.alias_ ≠ "xyz") ∧
      postgres.SaveURL sample.emptyTable "https://b.example/\x00" "xyz" =
        (sample.emptyTable, 0,
          some (.wrap "storage.postgres.SaveURL: " postgres.errInvalidText)) ∧
      (postgres.GetURL (postgres.SaveURL sample.emptyTable "https://b.example/\x00" "xyz").1
        "xyz").2 ≠ none) ∧
    ((∀ r ∈ sample.emptyTable.rows, r.alias_ ≠ "xy\x00") ∧
      postgres.SaveURL sample.emptyTable "https://b.example" "xy\x00" =
        (sample.emptyTable, 0,
          some (.wrap "storage.postgres.SaveURL: " postgres.errInvalidText)) ∧
      (postgres.GetURL (postgres.SaveURL sample.emptyTable "https://b.example" "xy\x00").1
        "xy\x00").2 ≠ none) := by
  decide

/-- C3, the code at a table that maps alias `abc` to `https://a.example`: `SaveURL` of
another url under `abc` leaves the rows unchanged and returns id 0, but the error is
the pool's `ErrNoRows` wrapped under the operation name, which is not
`storage.ErrURLExists`; and `GetURL` of `abc` still returns the first url. -/
theorem SaveURL_on_existing_alias_returns_wrapped_error :
    postgres.SaveURL sample.oneRow "https://b.example" "abc" =
      ({ rows := sample.oneRow.rows, lastID := 2 }, 0,
        some (.wrap "storage.postgres.SaveURL: " pgxv5.ErrNoRows)) ∧
    errorsIs (postgres.SaveURL sample.oneRow "https://b.example" "abc").2.2
      storage.ErrURLExists = false ∧
    postgres.GetURL (postgres.SaveURL sample.oneRow "https://b.example" "abc").1 "abc" =
      ("https://a.example", none) := by
  decide

/-- C4, the code at a table that has no row of alias `missing`: `GetURL` returns the
empty string, but the error is the pool's `ErrNoRows` wrapped under the operation
name, which is not `storage.ErrURLNotFound`. -/
theorem GetURL_on_missing_alias_returns_wrapped_error :
    postgres.GetURL sample.oneRow "missing" =
      ("", some (.wrap "storage.postgres.GetURL: execute statement " pgxv5.ErrNoRows)) ∧
    errorsIs (postgres.GetURL sample.oneRow "missing").2 storage.ErrURLNotFound = false := by
  decide

/-! ## Validation: lemmas -/

theorem validateField_URL_empty (isURL : String → Bool) :
    validateField isURL "URL" "" Request.URLTags =
      some { Field := "URL", Tag := "required" } := by
  simp [validateField, Request.URLTags, Tag.holds, Tag.name]

theorem validateField_URL_invalid (isURL : String → Bool) (u : String) (hne : u ≠ "")
    (h : isURL u = false) :
    validateField isURL "URL" u Request.URLTags = some { Field := "URL", Tag := "url" } := by
  simp [validateField, Request.URLTags, Tag.holds, Tag.name, hne, h]

theorem validateField_URL_valid (isURL : String → Bool) (u : String) (hne : u ≠ "")
    (h : isURL u = true) :
    validateField isURL "URL" u Request.URLTags = none := by
  simp [validateField, Request.URLTags, Tag.holds, hne, h]

theorem validateField_Alias_empty (isURL : String → Bool) :
    validateField isURL "Alias" "" Request.AliasTags = none := by
  simp [validateField, Request.AliasTags]

theorem validateField_Alias_good (isURL : String → Bool) (a : String)
    (h : isAlphanum3to20 a = true) :
    validateField isURL "Alias" a Request.AliasTags = none := by
  simp only [isAlphanum3to20, Bool.and_eq_true, decide_eq_true_eq] at h
  obtain ⟨⟨h3, h20⟩, hall⟩ := h
  have hall' : ∀ x ∈ a.data, isAlnum x = true := by simpa using hall
  have hne : a ≠ "" := by
    rintro rfl
    simp at h3
  simpa [validateField, Request.AliasTags, Tag.holds, hne, h3, h20] using hall'

theorem validateField_Alias_bad (isURL : String → Bool) (a : String) (hne : a ≠ "")
    (h : isAlphanum3to20 a = false) :
    ∃ t, (t = "alphanum" ∨ t = "min" ∨ t = "max") ∧
      validateField isURL "Alias" a Request.AliasTags =
        some { Field := "Alias", Tag := t } := by
  by_cases hall : ∀ x ∈ a.data, isAlnum x = true
  · by_cases h3 : 3 ≤ a.length
    · have h20 : ¬ a.length ≤ 20 := by
        intro h20
        have : isAlphanum3to20 a = true := by
          simpa [isAlphanum3to20, h3, h20] using hall
        simp [this] at h
      exact ⟨"max", by simp, by
        simpa [validateField, Request.AliasTags, Tag.holds, Tag.name, hne, h3, h20] using hall⟩
    · exact ⟨"min", by simp, by
        simpa [validateField, Request.AliasTags, Tag.holds, Tag.name, hne, h3] using hall⟩
  · exact ⟨"alphanum", by simp, by
      simp [validateField, Request.AliasTags, Tag.holds, Tag.name, hne, hall]⟩

/-- A request with a non-empty url the URL check accepts and an alias of 3 to 20
alphanumeric characters passes validation. -/
theorem validateStruct_of_valid (isURL : String → Bool) (req : Request)
    (hne : req.URL ≠ "") (hurl : isURL req.URL = true)
    (halias : isAlphanum3to20 req.Alias = true) :
    validateStruct isURL req = [] := by
  simp [validateStruct, validateField_URL_valid isURL req.URL hne hurl,
    validateField_Alias_good isURL req.Alias halias]

/-- A request with a non-empty url the URL check accepts and no alias passes
validation. -/
theorem validateStruct_of_no_alias (isURL : String → Bool) (req : Request)
    (hne : req.URL ≠ "") (hurl : isURL req.URL = true) (halias : req.Alias = "") :
    validateStruct isURL req = [] := by
  simp [validateStruct, validateField_URL_valid isURL req.URL hne hurl, halias,
    validateField_Alias_empty]

theorem containsText_trans {s m k : String} (h₁ : containsText s m) (h₂ : containsText m k) :
    containsText s k := by
  obtain ⟨p, q, rfl⟩ := h₁
  obtain ⟨p', q', rfl⟩ := h₂
  exact ⟨p ++ p', q' ++ q, by simp [String.append_assoc]⟩

/-- The message of a field error on `Alias` under one of its tags names the field. -/
theorem fieldMessage_Alias (t : String) (ht : t = "alphanum" ∨ t = "min" ∨ t = "max") :
    containsText (resp.fieldMessage { Field := "Alias", Tag := t }) "field Alias" := by
  rcases ht with rfl | rfl | rfl <;>
    exact ⟨"", " is not valid", by decide⟩

/-- When the `URL` field fails, the error text of the validation response contains the
message of that failure. -/
theorem ValidationError_contains_URL_message (isURL : String → Bool) (req : Request)
    (e : FieldError) (h : validateField isURL "URL" req.URL Request.URLTags = some e) :
    (∃ rest, validateStruct isURL req = e :: rest) ∧
    containsText (resp.ValidationError (validateStruct isURL req)).Error
      (resp.fieldMessage e) := by
  cases ha : validateField isURL "Alias" req.Alias Request.AliasTags with
  | none =>
    refine ⟨⟨[], by simp [validateStruct, h, ha]⟩, ?_⟩
    simp only [validateStruct, h, ha, resp.ValidationError]
    exact ⟨"", "", by simp [resp.join]⟩
  | some a =>
    refine ⟨⟨[a], by simp [validateStruct, h, ha]⟩, ?_⟩
    simp only [validateStruct, h, ha, resp.ValidationError]
    exact ⟨"", ", " ++ resp.fieldMessage a, by simp [resp.join, String.append_assoc]⟩

/-- When the `Alias` field fails, the validation error list is not empty and the error
text of the validation response contains the message of that failure. -/
theorem ValidationError_contains_Alias_message (isURL : String → Bool) (req : Request)
    (a : FieldError) (h : validateField isURL "Alias" req.Alias Request.AliasTags = some a) :
    validateStruct isURL req ≠ [] ∧ a ∈ validateStruct isURL req ∧
    containsText (resp.ValidationError (validateStruct isURL req)).Error
      (resp.fieldMessage a) := by
  cases hu : validateField isURL "URL" req.URL Request.URLTags with
  | none =>
    refine ⟨by simp [validateStruct, h, hu], by simp [validateStruct, h, hu], ?_⟩
    simp only [validateStruct, h, hu, resp.ValidationError]
    exact ⟨"", "", by simp [resp.join]⟩
  | some e =>
    refine ⟨by simp [validateStruct, h, hu], by simp [validateStruct, h, hu], ?_⟩
    simp only [validateStruct, h, hu, resp.ValidationError]
    exact ⟨resp.fieldMessage e ++ ", ", "", by simp [resp.join, String.append_assoc]⟩

/-! ## Save handler: lemmas -/

/-- A body of white space only, the empty body included, decodes to `io.EOF`. -/
theorem DecodeJSON_of_white_space (readValue : String → Except JSONFailure Request)
    (body : String) (h : body.toList.all isJSONSpace = true) :
    DecodeJSON readValue body = .error io.EOF := by
  simp only [DecodeJSON, h, if_true]

/-- A failure of the value reader on a body with other content is an error that is not
`io.EOF`. -/
theorem DecodeJSON_of_failure (readValue : String → Except JSONFailure Request)
    (body : String) (f : JSONFailure) (h : body.toList.all isJSONSpace = false)
    (hf : readValue body = .error f) :
    DecodeJSON readValue body = .error f.toError ∧
    errorsIs (some f.toError) io.EOF = false := by
  refine ⟨by simp only [DecodeJSON, h, hf, Bool.false_eq_true, if_false], ?_⟩
  cases f <;> decide

/-- The handler on a body that does not decode: no collaborator is called. -/
theorem New_of_decode_error {σ : Type} (deps : save.Deps σ) (urlSaver : save.URLSaver σ)
    (w : σ) (body : String) (err : GoError)
    (h : DecodeJSON deps.readValue body = .error err) :
    save.New deps urlSaver w body =
      (w, .json 200 { status := "Error",
                      error := if errorsIs (some err) io.EOF then "empty request"
                               else "failed to decode request",
                      alias_ := "" }) := by
  unfold save.New
  rw [h]
  by_cases he : errorsIs (some err) io.EOF = true <;>
    simp [he, renderJSON, resp.Error, resp.StatusError, StatusOK]

/-- The handler on a request that fails validation: no collaborator is called. -/
theorem New_of_invalid {σ : Type} (deps : save.Deps σ) (urlSaver : save.URLSaver σ)
    (w : σ) (body : String) (req : Request)
    (hdec : DecodeJSON deps.readValue body = .ok req)
    (hval : validateStruct deps.isURL req ≠ []) :
    save.New deps urlSaver w body =
      (w, .json 200 { status := "Error",
                      error := (resp.ValidationError (validateStruct deps.isURL req)).Error,
                      alias_ := "" }) := by
  unfold save.New
  rw [hdec]
  obtain ⟨e, es, hv⟩ := List.exists_cons_of_ne_nil hval
  simp only [hv]
  simp [renderJSON, resp.ValidationError, resp.StatusError, StatusOK]

/-- The handler on a request that passes validation: `SaveURL` is called once, with the
url of the request and the chosen alias, and the reply depends on its error only. -/
theorem New_of_valid {σ : Type} (deps : save.Deps σ) (urlSaver : save.URLSaver σ)
    (w : σ) (body : String) (req : Request)
    (hdec : DecodeJSON deps.readValue body = .ok req)
    (hval : validateStruct deps.isURL req = []) :
    save.New deps urlSaver w body =
      ((urlSaver.SaveURL (save.chooseAlias deps w req).1 req.URL
          (save.chooseAlias deps w req).2).1,
        match (urlSaver.SaveURL (save.chooseAlias deps w req).1 req.URL
          (save.chooseAlias deps w req).2).2.2 with
        | none => .json 200 { status := "OK", error := "",
                              alias_ := (save.chooseAlias deps w req).2 }
        | some e => .json 200 { status := "Error",
                                error := if e.is storage.ErrURLExists then "url already exists"
                                         else "failed to add url",
                                alias_ := "" }) := by
  unfold save.New
  rw [hdec]
  simp only [hval]
  cases he : (urlSaver.SaveURL (save.chooseAlias deps w req).1 req.URL
      (save.chooseAlias deps w req).2).2.2 with
  | none =>
    simp [errorsIs, save.responseOK, resp.OK, resp.StatusOK, StatusOK]
  | some e =>
    by_cases hx : e.is storage.ErrURLExists = true <;>
      simp [errorsIs, hx, renderJSON, resp.Error, resp.StatusError, StatusOK]

/-! ## Save handler: the claims -/

/-- The handler on a supplied alias that passes validation. For every save request
whose url is non-empty and accepted by the URL check and whose alias is a string of 3
to 20 alphanumeric characters, when `SaveURL` on that url and alias returns no error,
the handler calls `SaveURL` with exactly that url and alias (the world after the
handler is the world after that call) and answers HTTP 200 with status OK, an empty
error and the alias of the request unchanged. -/
theorem save_echoes_supplied_alias {σ : Type} (deps : save.Deps σ)
    (urlSaver : save.URLSaver σ) (w : σ) (body : String) (req : Request)
    (hdec : DecodeJSON deps.readValue body = .ok req)
    (hne : req.URL ≠ "") (hurl : deps.isURL req.URL = true)
    (halias : isAlphanum3to20 req.Alias = true)
    (hsave : (urlSaver.SaveURL w req.URL req.Alias).2.2 = none) :
    save.New deps urlSaver w body =
      ((urlSaver.SaveURL w req.URL req.Alias).1,
        .json 200 { status := "OK", error := "", alias_ := req.Alias }) := by
  have hval := validateStruct_of_valid deps.isURL req hne hurl halias
  have ha : req.Alias ≠ "" := by
    intro h
    rw [h] at halias
    exact absurd halias (by decide)
  have hc : save.chooseAlias deps w req = (w, req.Alias) := by
    simp [save.chooseAlias, ha]
  rw [New_of_valid deps urlSaver w body req hdec hval, hc]
  simp only [hsave]

/-- The handler at the url `https://google.com` with the alias `testalias` on the empty
table: the mapping is stored under id 1 and the alias is echoed. -/
theorem save_echoes_supplied_alias_witness :
    DecodeJSON sample.deps.readValue
        (sample.payload { URL := "https://google.com", Alias := "testalias" }) =
      .ok { URL := "https://google.com", Alias := "testalias" } ∧
    isAlphanum3to20 "testalias" = true ∧
    save.New sample.deps postgresSaver sample.emptyTable
        (sample.payload { URL := "https://google.com", Alias := "testalias" }) =
      ((postgresSaver.SaveURL sample.emptyTable "https://google.com" "testalias").1,
        .json 200 { status := "OK", error := "", alias_ := "testalias" }) :=
  ⟨by rfl, by decide,
    save_echoes_supplied_alias sample.deps postgresSaver sample.emptyTable
      (sample.payload { URL := "https://google.com", Alias := "testalias" })
      { URL := "https://google.com", Alias := "testalias" }
      (by rfl) (by decide) (by decide) (by decide) (by decide)⟩

/-- C1, the code at the request of the test case `Success`, url `https://google.com`
and alias `test_alias`: the url is accepted, the alias is supplied and `SaveURL` on
the empty table would return no error, yet the `alphanum` tag fails on the
underscore, `SaveURL` is not called (the table stays empty) and the answer is status
Error with the validation text for `Alias`, not status OK with the alias echoed. -/
theorem save_rejects_test_alias :
    DecodeJSON sample.deps.readValue
        (sample.payload { URL := "https://google.com", Alias := "test_alias" }) =
      .ok { URL := "https://google.com", Alias := "test_alias" } ∧
    sample.deps.isURL "https://google.com" = true ∧
    (postgresSaver.SaveURL sample.emptyTable "https://google.com" "test_alias").2.2 = none ∧
    validateStruct sample.deps.isURL { URL := "https://google.com", Alias := "test_alias" } =
      [{ Field := "Alias", Tag := "alphanum" }] ∧
    save.New sample.deps postgresSaver sample.emptyTable
        (sample.payload { URL := "https://google.com", Alias := "test_alias" }) =
      (sample.emptyTable,
        .json 200 { status := "Error", error := "field Alias is not valid", alias_ := "" }) ∧
    save.New sample.deps postgresSaver sample.emptyTable
        (sample.payload { URL := "https://google.com", Alias := "test_alias" }) ≠
      ((postgresSaver.SaveURL sample.emptyTable "https://google.com" "test_alias").1,
        .json 200 { status := "OK", error := "", alias_ := "test_alias" }) := by
  refine ⟨by rfl, by decide, by decide, by decide, by rfl, by decide⟩

/-- C6. For every save request whose url is non-empty and accepted by the URL check and
whose alias is empty (an absent alias decodes to the empty string), the handler asks
`NewRandomString` for `aliasLength = 6` characters and calls `SaveURL` with the url of
the request and exactly the generated string; when that call returns no error the
answer is HTTP 200 with status OK and the generated string as alias; and the alias
has 6 characters when the generator returns strings of the requested length. -/
theorem save_generates_alias_of_length_six {σ : Type} (deps : save.Deps σ)
    (urlSaver : save.URLSaver σ) (w : σ) (body : String) (req : Request)
    (hdec : DecodeJSON deps.readValue body = .ok req)
    (hne : req.URL ≠ "") (hurl : deps.isURL req.URL = true)
    (halias : req.Alias = "") :
    (save.New deps urlSaver w body).1 =
      (urlSaver.SaveURL (deps.NewRandomString w 6).1 req.URL
        (deps.NewRandomString w 6).2).1 ∧
    ((urlSaver.SaveURL (deps.NewRandomString w 6).1 req.URL
        (deps.NewRandomString w 6).2).2.2 = none →
      (save.New deps urlSaver w body).2 =
        .json 200 { status := "OK", error := "", alias_ := (deps.NewRandomString w 6).2 }) ∧
    ((∀ w' n, (deps.NewRandomString w' n).2.length = n) →
      (deps.NewRandomString w 6).2.length = 6) := by
  have hval := validateStruct_of_no_alias deps.isURL req hne hurl halias
  have hc : save.chooseAlias deps w req = deps.NewRandomString w 6 := by
    simp [save.chooseAlias, halias, save.aliasLength]
  rw [New_of_valid deps urlSaver w body req hdec hval, hc]
  refine ⟨rfl, ?_, fun h => h w 6⟩
  intro hsave
  simp only [hsave]

/-- C6, at the url `https://google.com` with an empty alias on the empty table, with a
generator that returns the letter `a` the requested number of times: the mapping is
saved under `aaaaaa`, which is echoed. -/
theorem save_generates_alias_of_length_six_witness :
    (save.New sample.deps postgresSaver sample.emptyTable
        (sample.payload { URL := "https://google.com", Alias := "" })).1 =
      { rows := [{ id := 1, alias_ := "aaaaaa", url := "https://google.com" }], lastID := 1 } ∧
    (save.New sample.deps postgresSaver sample.emptyTable
        (sample.payload { URL := "https://google.com", Alias := "" })).2 =
      .json 200 { status := "OK", error := "", alias_ := "aaaaaa" } ∧
    (sample.deps.NewRandomString sample.emptyTable 6).2.length = 6 :=
  have h := save_generates_alias_of_length_six sample.deps postgresSaver sample.emptyTable
    (sample.payload { URL := "https://google.com", Alias := "" })
    { URL := "https://google.com", Alias := "" } (by rfl) (by decide) (by decide) (by rfl)
  ⟨h.1.trans (by decide), (h.2.1 (by decide)).trans (by decide), by decide⟩

/-- C7. For every decoded save request: when the alias is non-empty and not a string of 3
to 20 alphanumeric characters, validation reports a field error on `Alias`, the
handler answers HTTP 200 with status Error and an error text that names the field, and
`SaveURL` is not called (the world is unchanged, whatever the saver); and when the
alias is a string of 3 to 20 alphanumeric characters, validation reports no field
error on `Alias`. -/
theorem save_validates_alias {σ : Type} (deps : save.Deps σ) (urlSaver : save.URLSaver σ)
    (w : σ) (body : String) (req : Request)
    (hdec : DecodeJSON deps.readValue body = .ok req) :
    (req.Alias ≠ "" → isAlphanum3to20 req.Alias = false →
      (∃ t, ({ Field := "Alias", Tag := t } : FieldError) ∈ validateStruct deps.isURL req) ∧
      ∃ text, containsText text "field Alias" ∧
        save.New deps urlSaver w body =
          (w, .json 200 { status := "Error", error := text, alias_ := "" })) ∧
    (isAlphanum3to20 req.Alias = true →
      ∀ e ∈ validateStruct deps.isURL req, e.Field ≠ "Alias") := by
  constructor
  · intro hne hbad
    obtain ⟨t, ht, hf⟩ := validateField_Alias_bad deps.isURL req.Alias hne hbad
    obtain ⟨hnil, hmem, htext⟩ := ValidationError_contains_Alias_message deps.isURL req _ hf
    exact ⟨⟨t, hmem⟩, _, containsText_trans htext (fieldMessage_Alias t ht),
      New_of_invalid deps urlSaver w body req hdec hnil⟩
  · intro hgood e he
    have hnone := validateField_Alias_good deps.isURL req.Alias hgood
    simp only [validateStruct, hnone, Option.toList, List.append_nil] at he
    cases hu : validateField deps.isURL "URL" req.URL Request.URLTags with
    | none => simp [hu] at he
    | some x =>
      simp only [hu, List.mem_singleton] at he
      subst he
      by_cases h0 : req.URL = ""
      · rw [h0, validateField_URL_empty] at hu
        cases hu
        decide
      · by_cases h1 : deps.isURL req.URL = true
        · rw [validateField_URL_valid deps.isURL req.URL h0 h1] at hu
          cases hu
        · have h1' : deps.isURL req.URL = false := by simpa using h1
          rw [validateField_URL_invalid deps.isURL req.URL h0 h1'] at hu
          cases hu
          decide

/-- C7, at the request with url `https://google.com` and alias `test_alias` on the empty
table: the alias has an underscore, the answer is the validation error on `Alias` and
the table stays empty. -/
theorem save_validates_alias_witness :
    isAlphanum3to20 "test_alias" = false ∧
    ∃ text, containsText text "field Alias" ∧
      save.New sample.deps postgresSaver sample.emptyTable
          (sample.payload { URL := "https://google.com", Alias := "test_alias" }) =
        (sample.emptyTable, .json 200 { status := "Error", error := text, alias_ := "" }) :=
  ⟨by decide,
    ((save_validates_alias sample.deps postgresSaver sample.emptyTable
      (sample.payload { URL := "https://google.com", Alias := "test_alias" })
      { URL := "https://google.com", Alias := "test_alias" } (by rfl)).1
        (by decide) (by decide)).2⟩

/-- C8. For every decoded save request, whatever its alias: when the url is empty the
handler answers HTTP 200 with status Error and an error text containing
"field URL is a required field"; when the url is non-empty and rejected by the URL
check it answers HTTP 200 with status Error and an error text containing
"field URL is not a valid URL"; in both cases `SaveURL` is not called (the world is
unchanged, whatever the saver). -/
theorem save_validates_url {σ : Type} (deps : save.Deps σ) (urlSaver : save.URLSaver σ)
    (w : σ) (body : String) (req : Request)
    (hdec : DecodeJSON deps.readValue body = .ok req) :
    (req.URL = "" →
      ∃ text, containsText text "field URL is a required field" ∧
        save.New deps urlSaver w body =
          (w, .json 200 { status := "Error", error := text, alias_ := "" })) ∧
    (req.URL ≠ "" → deps.isURL req.URL = false →
      ∃ text, containsText text "field URL is not a valid URL" ∧
        save.New deps urlSaver w body =
          (w, .json 200 { status := "Error", error := text, alias_ := "" })) := by
  constructor
  · intro h0
    have hf : validateField deps.isURL "URL" req.URL Request.URLTags =
        some { Field := "URL", Tag := "required" } := by
      rw [h0, validateField_URL_empty]
    obtain ⟨⟨rest, hrest⟩, htext⟩ := ValidationError_contains_URL_message deps.isURL req _ hf
    have hnil : validateStruct deps.isURL req ≠ [] := by simp [hrest]
    exact ⟨_, htext, New_of_invalid deps urlSaver w body req hdec hnil⟩
  · intro h0 h1
    have hf := validateField_URL_invalid deps.isURL req.URL h0 h1
    obtain ⟨⟨rest, hrest⟩, htext⟩ := ValidationError_contains_URL_message deps.isURL req _ hf
    have hnil : validateStruct deps.isURL req ≠ [] := by simp [hrest]
    exact ⟨_, htext, New_of_invalid deps urlSaver w body req hdec hnil⟩

/-- C8, at the two requests of the handler test, alias `some_alias` with an empty url and
with the url `some invalid URL`, on the empty table. -/
theorem save_validates_url_witness :
    (∃ text, containsText text "field URL is a required field" ∧
      save.New sample.deps postgresSaver sample.emptyTable
          (sample.payload { URL := "", Alias := "some_alias" }) =
        (sample.emptyTable, .json 200 { status := "Error", error := text, alias_ := "" })) ∧
    (∃ text, containsText text "field URL is not a valid URL" ∧
      save.New sample.deps postgresSaver sample.emptyTable
          (sample.payload { URL := "some invalid URL", Alias := "some_alias" }) =
        (sample.emptyTable, .json 200 { status := "Error", error := text, alias_ := "" })) :=
  ⟨(save_validates_url sample.deps postgresSaver sample.emptyTable
      (sample.payload { URL := "", Alias := "some_alias" })
      { URL := "", Alias := "some_alias" } (by rfl)).1 (by rfl),
   (save_validates_url sample.deps postgresSaver sample.emptyTable
      (sample.payload { URL := "some invalid URL", Alias := "some_alias" })
      { URL := "some invalid URL", Alias := "some_alias" } (by rfl)).2
        (by decide) (by decide)⟩

/-- C9. For every save request that decodes and passes validation, when `SaveURL` fails
the answer depends on the class of the error only: HTTP 200 with status Error, no
alias, and the error text "url already exists" when the error is or wraps
`storage.ErrURLExists` and exactly "failed to add url" otherwise; so two runs on the
same request whose savers fail with errors that are not `storage.ErrURLExists` give
the same answer. -/
theorem save_failure_answer_depends_on_error_class {σ : Type} (deps : save.Deps σ)
    (urlSaver urlSaver' : save.URLSaver σ) (w : σ) (body : String) (req : Request)
    (e e' : GoError)
    (hdec : DecodeJSON deps.readValue body = .ok req)
    (hval : validateStruct deps.isURL req = [])
    (herr : (urlSaver.SaveURL (save.chooseAlias deps w req).1 req.URL
      (save.chooseAlias deps w req).2).2.2 = some e)
    (herr' : (urlSaver'.SaveURL (save.chooseAlias deps w req).1 req.URL
      (save.chooseAlias deps w req).2).2.2 = some e') :
    (errorsIs (some e) storage.ErrURLExists = true →
      (save.New deps urlSaver w body).2 =
        .json 200 { status := "Error", error := "url already exists", alias_ := "" }) ∧
    (errorsIs (some e) storage.ErrURLExists = false →
      (save.New deps urlSaver w body).2 =
        .json 200 { status := "Error", error := "failed to add url", alias_ := "" }) ∧
    (errorsIs (some e) storage.ErrURLExists = false →
      errorsIs (some e') storage.ErrURLExists = false →
      (save.New deps urlSaver w body).2 = (save.New deps urlSaver' w body).2) := by
  rw [New_of_valid deps urlSaver w body req hdec hval,
    New_of_valid deps urlSaver' w body req hdec hval]
  simp only [herr, herr', errorsIs]
  refine ⟨fun h => by simp [h], fun h => by simp [h], fun h h' => by simp [h, h']⟩

/-- C9, at the url `https://google.com` with alias `testalias`: a saver that fails with
"unexpected error" and one that fails with "connection refused" both get the answer
"failed to add url", and a saver that reports `storage.ErrURLExists` gets
"url already exists". -/
theorem save_failure_answer_depends_on_error_class_witness :
    (save.New sample.deps sample.existsSaver sample.emptyTable
        (sample.payload { URL := "https://google.com", Alias := "testalias" })).2 =
      .json 200 { status := "Error", error := "url already exists", alias_ := "" } ∧
    (save.New sample.deps (sample.failingSaver (.sentinel "unexpected error"))
        sample.emptyTable
        (sample.payload { URL := "https://google.com", Alias := "testalias" })).2 =
      .json 200 { status := "Error", error := "failed to add url", alias_ := "" } ∧
    (save.New sample.deps (sample.failingSaver (.sentinel "unexpected error"))
        sample.emptyTable
        (sample.payload { URL := "https://google.com", Alias := "testalias" })).2 =
      (save.New sample.deps (sample.failingSaver (.sentinel "connection refused"))
        sample.emptyTable
        (sample.payload { URL := "https://google.com", Alias := "testalias" })).2 :=
  have h := save_failure_answer_depends_on_error_class sample.deps
    (sample.failingSaver (.sentinel "unexpected error"))
    (sample.failingSaver (.sentinel "connection refused")) sample.emptyTable
    (sample.payload { URL := "https://google.com", Alias := "testalias" })
    { URL := "https://google.com", Alias := "testalias" }
    (.sentinel "unexpected error") (.sentinel "connection refused")
    (by rfl) (by decide) (by rfl) (by rfl)
  have h' := save_failure_answer_depends_on_error_class sample.deps
    sample.existsSaver sample.existsSaver sample.emptyTable
    (sample.payload { URL := "https://google.com", Alias := "testalias" })
    { URL := "https://google.com", Alias := "testalias" }
    storage.ErrURLExists storage.ErrURLExists
    (by rfl) (by decide) (by rfl) (by rfl)
  ⟨h'.1 (by decide), h.2.1 (by decide), h.2.2 (by decide) (by decide)⟩

/-- C10, as amended. For every save request: a body that is empty or holds JSON white
space only gets the answer status Error, "empty request"; a body with other content
that the value reader cannot decode (such as the truncated object of one opening
brace) gets the different answer status Error, "failed to decode request"; both
answers are HTTP 200 and in both cases neither validation nor `SaveURL` is reached
(the world is unchanged, whatever the saver and the URL check). -/
theorem save_empty_and_undecodable_bodies {σ : Type} (deps : save.Deps σ)
    (urlSaver : save.URLSaver σ) (w : σ) (body : String) :
    save.New deps urlSaver w "" =
      (w, .json 200 { status := "Error", error := "empty request", alias_ := "" }) ∧
    (body.toList.all isJSONSpace = true →
      save.New deps urlSaver w body =
        (w, .json 200 { status := "Error", error := "empty request", alias_ := "" })) ∧
    (body.toList.all isJSONSpace = false → ∀ f, deps.readValue body = .error f →
      save.New deps urlSaver w body =
        (w, .json 200 { status := "Error", error := "failed to decode request",
                        alias_ := "" })) ∧
    (Reply.json 200 { status := "Error", error := "empty request", alias_ := "" } ≠
      Reply.json 200 { status := "Error", error := "failed to decode request",
                       alias_ := "" }) := by
  have hws : ∀ b : String, b.toList.all isJSONSpace = true →
      save.New deps urlSaver w b =
        (w, .json 200 { status := "Error", error := "empty request", alias_ := "" }) := by
    intro b hb
    rw [New_of_decode_error deps urlSaver w b io.EOF
      (DecodeJSON_of_white_space deps.readValue b hb)]
    rfl
  refine ⟨hws "" (by decide), hws body, ?_, by decide⟩
  intro hb f hf
  obtain ⟨hd, hn⟩ := DecodeJSON_of_failure deps.readValue body f hb hf
  rw [New_of_decode_error deps urlSaver w body f.toError hd]
  simp [hn]

/-- C10 as amended, on the empty table: the body of one line feed gets
"empty request" and the body of one opening brace gets "failed to decode request". -/
theorem save_empty_and_undecodable_bodies_witness :
    save.New sample.deps postgresSaver sample.emptyTable "\n" =
      (sample.emptyTable,
        .json 200 { status := "Error", error := "empty request", alias_ := "" }) ∧
    save.New sample.deps postgresSaver sample.emptyTable "\x7b" =
      (sample.emptyTable,
        .json 200 { status := "Error", error := "failed to decode request", alias_ := "" }) :=
  ⟨(save_empty_and_undecodable_bodies sample.deps postgresSaver sample.emptyTable "\n").2.1
      (by decide),
   (save_empty_and_undecodable_bodies sample.deps postgresSaver sample.emptyTable "\x7b").2.2.1
      (by decide) .unexpectedEOF (by rfl)⟩

/-- C10 as stated fails at the body of one space: the body is not empty and does not
decode, yet the decoder reports `io.EOF`, so the answer is "empty request" and not
"failed to decode request". -/
theorem save_white_space_body_is_empty_request :
    " " ≠ "" ∧
    DecodeJSON sample.deps.readValue " " = .error io.EOF ∧
    save.New sample.deps postgresSaver sample.emptyTable " " =
      (sample.emptyTable,
        .json 200 { status := "Error", error := "empty request", alias_ := "" }) ∧
    save.New sample.deps postgresSaver sample.emptyTable " " ≠
      (sample.emptyTable,
        .json 200 { status := "Error", error := "failed to decode request", alias_ := "" }) := by
  refine ⟨by decide, by rfl, by rfl, by decide⟩

/-! ## Redirect handler: the claim -/

/-- C5. For every non-empty alias path parameter the answer of the redirect handler is
determined by the result of `GetURL alias`: HTTP 404 with status Error and error
"not found" when the error is or wraps `storage.ErrURLNotFound`; HTTP 200 with
status Error and error "internal error" for any other non-nil error; and
`http.Redirect` with status 302 (Found) to exactly the returned url when the error
is nil. -/
theorem redirect_answer_follows_GetURL {σ : Type} (urlGetter : redirect.URLGetter σ)
    (w : σ) (alias_ : String) (hne : alias_ ≠ "") :
    (errorsIs (urlGetter.GetURL w alias_).2.2 storage.ErrURLNotFound = true →
      (redirect.New urlGetter w alias_).2 =
        .json 404 { status := "Error", error := "not found", alias_ := "" }) ∧
    (∀ e, (urlGetter.GetURL w alias_).2.2 = some e →
      errorsIs (some e) storage.ErrURLNotFound = false →
      (redirect.New urlGetter w alias_).2 =
        .json 200 { status := "Error", error := "internal error", alias_ := "" }) ∧
    (∀ u, (urlGetter.GetURL w alias_).2 = (u, none) →
      (redirect.New urlGetter w alias_).2 = .redirect u 302) := by
  unfold redirect.New
  simp only [hne, if_false]
  refine ⟨fun h => by simp [h, renderJSON, resp.Error, resp.StatusError, StatusNotFound],
    fun e he hn => ?_, fun u hu => ?_⟩
  · rw [he]
    simp [hn, renderJSON, resp.Error, resp.StatusError, StatusOK]
  · rw [hu]
    simp [errorsIs, StatusFound]

/-- C5, over the storage engine at the table that maps `abc` to `https://a.example`: the
lookup of `abc` succeeds and the handler redirects to that url with status 302. -/
theorem redirect_answer_follows_GetURL_witness :
    "abc" ≠ "" ∧
    (postgresGetter.GetURL sample.oneRow "abc").2 = ("https://a.example", none) ∧
    (redirect.New postgresGetter sample.oneRow "abc").2 =
      .redirect "https://a.example" 302 :=
  ⟨by decide, by decide,
    (redirect_answer_follows_GetURL postgresGetter sample.oneRow "abc" (by decide)).2.2
      "https://a.example" (by decide)⟩

end UrlShortener
